import Mathlib

/-!
Verification of `src/nerf/network.py` (torch-merf): a MeRF-style hybrid
voxel-grid + tri-plane radiance-field network.

Shallow embedding conventions:
* Scalars are real numbers (`ℝ`); a tensor's last axis is a `List ℝ`, and the
  batch axis is dropped (all claims are per-point).
* A 3D point is `Fin 3 → ℝ`; fancy indexing `x[..., [i, j]]` becomes `![x i, x j]`.
* External modules produced by `get_encoder` (the hash-grid and frequency
  encoders) are opaque functions supplied at construction; the MLPs defined in
  the file itself are embedded concretely as lists of linear layers.
* `trunc_exp` is imported from the repository's `activation` module, which is
  not part of the analysed source; it is modelled from the spec (see below).
* Python attribute errors (accessing `self.prop_encoders` when it was never
  created) are made explicit: `density` returns `Except PyError`.
-/

/-- In-place ReLU `F.relu(x, inplace=True)` applied to a feature vector
(elementwise `max 0`; the in-place aspect is framework memory reuse with no
observable effect on the value). -/
def reluVec (v : List ℝ) : List ℝ := v.map (fun t => max t 0)

/-- Elementwise sum of two feature tensors (`+` on same-shaped tensors). -/
def vadd (a b : List ℝ) : List ℝ := List.zipWith (· + ·) a b

/-- Modelled from the spec: `trunc_exp` is imported from the repository's
`activation` module, absent from the analysed source.  Per the spec it is "an
exponential activation with a gradient-clamped backward pass"; the forward
value, the only part the claims use, is the exponential. -/
noncomputable def truncExp (t : ℝ) : ℝ := Real.exp t

/-- `torch.sigmoid`, elementwise logistic function (external framework op). -/
noncomputable def sigmoid (t : ℝ) : ℝ := 1 / (1 + Real.exp (-t))

/-- `Tensor.clamp(0, 1)` on one scalar: `min (max t 0) 1`. -/
def clamp01 (t : ℝ) : ℝ := min (max t 0) 1

/-- One `nn.Linear(dIn, dOut, bias)` layer: a weight matrix (rows = output
channels) and a bias vector; `bias=False` is an all-zero bias. -/
structure LinLayer where
  weight : List (List ℝ)
  bias : List ℝ

/-- Affine transform `y = x Wᵀ + b`: output channel `i` is
`dot (weight i) x + bias i`. -/
def LinLayer.apply (L : LinLayer) (x : List ℝ) : List ℝ :=
  List.zipWith (fun row b => (List.zipWith (· * ·) row x).sum + b) L.weight L.bias

instance : Inhabited LinLayer := ⟨⟨[], []⟩⟩

/-- `MLP`: the constructor builds `net` as a list of `num_layers` linear
layers; `self.num_layers` always equals `len(self.net)`, so it is derived. -/
structure MLP where
  net : List LinLayer

instance : Inhabited MLP := ⟨⟨[]⟩⟩

def MLP.num_layers (m : MLP) : ℕ := m.net.length

/-- Loop body of `MLP.forward`: `x = self.net[l](x)`, then
`if l != self.num_layers - 1: x = F.relu(x, inplace=True)`. -/
def mlpStep (net : List LinLayer) (n : ℕ) (x : List ℝ) (l : ℕ) : List ℝ :=
  let y := (net.getD l default).apply x
  if l ≠ n - 1 then reluVec y else y

/-- `MLP.forward`: `for l in range(self.num_layers): x = self.net[l](x);
if l != self.num_layers - 1: x = F.relu(x, inplace=True)`. -/
def MLP.forward (m : MLP) (x : List ℝ) : List ℝ :=
  (List.range m.num_layers).foldl (mlpStep m.net m.num_layers) x

/-- Specification-side description of the MLP pipeline: apply each layer in
order with a ReLU after every layer except the last. -/
def mlpSpec : List LinLayer → List ℝ → List ℝ
  | [], x => x
  | [L], x => L.apply x
  | L :: L2 :: rest, x => mlpSpec (L2 :: rest) (reluVec (L.apply x))

/-- `HashEncoder`: an external multiresolution grid encoder (`get_encoder`
result, opaque: `(x, bound) ↦ features`) followed by an `MLP`. -/
structure HashEncoder (inDim : ℕ) where
  encoder : (Fin inDim → ℝ) → ℝ → List ℝ
  mlp : MLP

/-- `HashEncoder.forward(x, bound) = self.mlp(self.encoder(x, bound=bound))`. -/
def HashEncoder.forward {n : ℕ} (h : HashEncoder n) (x : Fin n → ℝ) (bound : ℝ) :
    List ℝ :=
  h.mlp.forward (h.encoder x bound)

/-- Python exceptions surfaced by the embedding. -/
inductive PyError where
  | attributeError
deriving DecidableEq

/-- Result dictionary of `density`: `{'sigma': sigma}`. -/
structure DensityResult where
  sigma : ℝ
deriving Inhabited

/-- Result dictionary of `forward`: `{'sigma': ..., 'color': ..., 'specular': ...}`;
`specular` is `None` in diffuse shading. -/
structure ForwardResult where
  sigma : ℝ
  color : List ℝ
  specular : Option (List ℝ)

/-- `NeRFNetwork` state after `__init__`: the spatial encoders, the
view-direction encoder (external frequency encoder) and MLP, and the proposal
submodules, which exist only when `opt.cuda_ray` is false.  `cuda_ray` and
`bound` come from the `NeRFRenderer` base class via `opt`. -/
structure NeRFNetwork where
  cuda_ray : Bool
  bound : ℝ
  grid : HashEncoder 3
  planeXY : HashEncoder 2
  planeYZ : HashEncoder 2
  planeXZ : HashEncoder 2
  view_encoder : (Fin 3 → ℝ) → List ℝ
  view_mlp : MLP
  prop_encoders : Option (List ((Fin 3 → ℝ) → ℝ → List ℝ))
  prop_mlp : Option (List MLP)

/-- Externally supplied modules consumed by `__init__`: the `get_encoder`
results and the randomly initialised MLP weights (initialisation is the
framework's). -/
structure ExtModules where
  gridEnc : (Fin 3 → ℝ) → ℝ → List ℝ
  gridMlp : MLP
  xyEnc : (Fin 2 → ℝ) → ℝ → List ℝ
  xyMlp : MLP
  yzEnc : (Fin 2 → ℝ) → ℝ → List ℝ
  yzMlp : MLP
  xzEnc : (Fin 2 → ℝ) → ℝ → List ℝ
  xzMlp : MLP
  viewEnc : (Fin 3 → ℝ) → List ℝ
  viewMlp : MLP
  prop0Enc : (Fin 3 → ℝ) → ℝ → List ℝ
  prop0Mlp : MLP
  prop1Enc : (Fin 3 → ℝ) → ℝ → List ℝ
  prop1Mlp : MLP

/-- `NeRFNetwork.__init__(opt)`: builds the grid and the three plane hash
encoders, the view encoder/MLP, and — only when `opt.cuda_ray` is false — the
two hard-coded proposal encoder/MLP pairs (`prop_encoders`, `prop_mlp` are
never created otherwise). -/
def NeRFNetwork.init (cuda_ray : Bool) (bound : ℝ) (ext : ExtModules) :
    NeRFNetwork where
  cuda_ray := cuda_ray
  bound := bound
  grid := ⟨ext.gridEnc, ext.gridMlp⟩
  planeXY := ⟨ext.xyEnc, ext.xyMlp⟩
  planeYZ := ⟨ext.yzEnc, ext.yzMlp⟩
  planeXZ := ⟨ext.xzEnc, ext.xzMlp⟩
  view_encoder := ext.viewEnc
  view_mlp := ext.viewMlp
  prop_encoders := if cuda_ray then none else some [ext.prop0Enc, ext.prop1Enc]
  prop_mlp := if cuda_ray then none else some [ext.prop0Mlp, ext.prop1Mlp]

/-- `common_forward(x)`: the four raw 8-channel feature tensors, unsummed
(`x[..., [0,1]]` etc. select coordinate pairs for the planes). -/
def NeRFNetwork.common_forward (net : NeRFNetwork) (x : Fin 3 → ℝ) :
    List ℝ × List ℝ × List ℝ × List ℝ :=
  let f_grid := net.grid.forward x net.bound
  let f_plane_01 := net.planeXY.forward ![x 0, x 1] net.bound
  let f_plane_12 := net.planeYZ.forward ![x 1, x 2] net.bound
  let f_plane_02 := net.planeXZ.forward ![x 0, x 2] net.bound
  (f_grid, f_plane_01, f_plane_12, f_plane_02)

/-- Same computation as `common_forward` with the three plane encoders
evaluated in the opposite order (used to state order-invariance). -/
def NeRFNetwork.common_forward_reordered (net : NeRFNetwork) (x : Fin 3 → ℝ) :
    List ℝ × List ℝ × List ℝ × List ℝ :=
  let f_plane_02 := net.planeXZ.forward ![x 0, x 2] net.bound
  let f_plane_12 := net.planeYZ.forward ![x 1, x 2] net.bound
  let f_plane_01 := net.planeXY.forward ![x 0, x 1] net.bound
  let f_grid := net.grid.forward x net.bound
  (f_grid, f_plane_01, f_plane_12, f_plane_02)

/-- `forward(x, d, shading='full')` of `NeRFNetwork`. -/
noncomputable def NeRFNetwork.forward (net : NeRFNetwork) (x : Fin 3 → ℝ) (d : Fin 3 → ℝ)
    (shading : String := "full") : ForwardResult :=
  let c := net.common_forward x
  let f := vadd (vadd (vadd c.1 c.2.1) c.2.2.1) c.2.2.2
  let sigma := truncExp (f.getD 0 0 - 1)
  let diffuse := ((f.drop 1).take 3).map sigmoid
  let f_specular := (f.drop 4).map sigmoid
  let dEnc := net.view_encoder d
  if shading = "diffuse" then
    { sigma := sigma, color := diffuse, specular := none }
  else
    let specular := net.view_mlp.forward (diffuse ++ f_specular ++ dEnc)
    let specular := specular.map sigmoid
    if shading = "specular" then
      { sigma := sigma, color := specular, specular := some specular }
    else
      { sigma := sigma
        color := (vadd specular diffuse).map clamp01
        specular := some specular }

/-- `density(x, proposal=-1)`.  Python evaluates
`proposal >= 0 and proposal < len(self.prop_encoders)` left to right with
short-circuiting: `self.prop_encoders` is only touched when `proposal >= 0`,
and raises `AttributeError` if the attribute was never created. -/
noncomputable def NeRFNetwork.density (net : NeRFNetwork) (x : Fin 3 → ℝ)
    (proposal : ℤ := -1) : Except PyError DensityResult :=
  if 0 ≤ proposal then
    match net.prop_encoders with
    | none => .error .attributeError
    | some encs =>
      if proposal < (encs.length : ℤ) then
        match net.prop_mlp with
        | none => .error .attributeError
        | some mlps =>
          let feats := (encs.getD proposal.toNat (fun _ _ => [])) x net.bound
          let out := (mlps.getD proposal.toNat default).forward feats
          .ok { sigma := truncExp (out.getD 0 0 - 1) }
      else
        let c := net.common_forward x
        let f := vadd (vadd (vadd c.1 c.2.1) c.2.2.1) c.2.2.2
        .ok { sigma := truncExp (f.getD 0 0 - 1) }
  else
    let c := net.common_forward x
    let f := vadd (vadd (vadd c.1 c.2.1) c.2.2.1) c.2.2.2
    .ok { sigma := truncExp (f.getD 0 0 - 1) }

/-- A parameter group handed to the optimizer: the `.parameters()` set of one
submodule, identified by which submodule it came from, tagged with a learning
rate. -/
inductive ParamRef where
  | grid
  | planeXY
  | planeYZ
  | planeXZ
  | view_mlp
  | prop_encoders
  | prop_mlp
deriving DecidableEq

structure ParamGroup where
  params : ParamRef
  lr : ℝ

/-- `get_params(lr)`: the five spatial/view groups always, the two proposal
groups appended only when `not self.opt.cuda_ray`. -/
def NeRFNetwork.get_params (net : NeRFNetwork) (lr : ℝ) : List ParamGroup :=
  let params : List ParamGroup :=
    [⟨.grid, lr⟩, ⟨.planeXY, lr⟩, ⟨.planeYZ, lr⟩, ⟨.planeXZ, lr⟩, ⟨.view_mlp, lr⟩]
  if ¬ net.cuda_ray then
    params ++ [⟨.prop_encoders, lr⟩, ⟨.prop_mlp, lr⟩]
  else
    params

/-! Derived quantities of the spatial path, mirroring the bodies of `forward`
and `density` (used to state the claims). -/

/-- The summed feature tensor `f = f_grid + f_plane_01 + f_plane_12 + f_plane_02`. -/
def NeRFNetwork.fSum (net : NeRFNetwork) (x : Fin 3 → ℝ) : List ℝ :=
  let c := net.common_forward x
  vadd (vadd (vadd c.1 c.2.1) c.2.2.1) c.2.2.2

/-- Full-path density `sigma = trunc_exp(f[..., 0] - 1)`. -/
noncomputable def NeRFNetwork.fullSigma (net : NeRFNetwork) (x : Fin 3 → ℝ) : ℝ :=
  truncExp ((net.fSum x).getD 0 0 - 1)

/-- `diffuse = torch.sigmoid(f[..., 1:4])`. -/
noncomputable def NeRFNetwork.diffuseOf (net : NeRFNetwork) (x : Fin 3 → ℝ) : List ℝ :=
  (((net.fSum x).drop 1).take 3).map sigmoid

/-- `f_specular = torch.sigmoid(f[..., 4:])`. -/
noncomputable def NeRFNetwork.fspecOf (net : NeRFNetwork) (x : Fin 3 → ℝ) : List ℝ :=
  ((net.fSum x).drop 4).map sigmoid

/-- `specular = torch.sigmoid(view_mlp(cat([diffuse, f_specular, view_encoder(d)])))`. -/
noncomputable def NeRFNetwork.specularOf (net : NeRFNetwork) (x d : Fin 3 → ℝ) : List ℝ :=
  (net.view_mlp.forward (net.diffuseOf x ++ net.fspecOf x ++ net.view_encoder d)).map
    sigmoid

/-! Concrete degenerate module bundle: every external encoder returns the empty
feature list and every MLP has no layers.  Used as an explicit instance when a
claim needs a concrete network. -/

def extZero : ExtModules where
  gridEnc := fun _ _ => []
  gridMlp := ⟨[]⟩
  xyEnc := fun _ _ => []
  xyMlp := ⟨[]⟩
  yzEnc := fun _ _ => []
  yzMlp := ⟨[]⟩
  xzEnc := fun _ _ => []
  xzMlp := ⟨[]⟩
  viewEnc := fun _ => []
  viewMlp := ⟨[]⟩
  prop0Enc := fun _ _ => []
  prop0Mlp := ⟨[]⟩
  prop1Enc := fun _ _ => []
  prop1Mlp := ⟨[]⟩

/-- A concrete input point. -/
def x0 : Fin 3 → ℝ := fun _ => 0

/-- A network constructed with `cuda_ray = True` (no proposal submodules). -/
def netTrue : NeRFNetwork := NeRFNetwork.init true 1 extZero

/-- A network constructed with `cuda_ray = False` (two proposal networks). -/
def netFalse : NeRFNetwork := NeRFNetwork.init false 1 extZero

/-! Helper lemmas. -/

/-- Unrolling the `MLP.forward` index loop: folding the loop body over indices
`k, k+1, ...` of a layer list whose suffix from position `k` is `suf` computes
the spec-side pipeline on `suf`. -/
theorem mlp_foldl_spec (suf : List LinLayer) :
    ∀ (k : ℕ) (net : List LinLayer) (x : List ℝ),
      net.length = k + suf.length →
      (∀ i, i < suf.length → net.getD (k + i) default = suf.getD i default) →
      (List.range' k suf.length).foldl (mlpStep net net.length) x = mlpSpec suf x := by
  induction suf with
  | nil =>
    intro k net x _ _
    simp [mlpSpec]
  | cons L rest ih =>
    intro k net x hlen hget
    have hL : net.getD k default = L := by simpa using hget 0 (by simp)
    cases rest with
    | nil =>
      have hn : net.length = k + 1 := by simpa using hlen
      have h1 : List.range' k 1 = [k] := by simp [List.range'_succ]
      show (List.range' k 1).foldl (mlpStep net net.length) x = mlpSpec [L] x
      rw [h1]
      show mlpStep net net.length x k = mlpSpec [L] x
      unfold mlpStep
      rw [hL, hn]
      simp [mlpSpec]
    | cons L2 rest2 =>
      have hn : net.length = k + rest2.length + 2 := by
        simp [List.length_cons] at hlen
        omega
      have hNe : k ≠ net.length - 1 := by omega
      have hstep : mlpStep net net.length x k = reluVec (L.apply x) := by
        unfold mlpStep
        rw [hL]
        simp [hNe]
      have hlen2 : net.length = (k + 1) + (L2 :: rest2).length := by
        simp [List.length_cons]
        omega
      have hget2 : ∀ i, i < (L2 :: rest2).length →
          net.getD (k + 1 + i) default = (L2 :: rest2).getD i default := by
        intro i hi
        have h := hget (i + 1) (by simp at hi ⊢; omega)
        have hk : k + (i + 1) = k + 1 + i := by omega
        rw [hk] at h
        simpa using h
      have hrec := ih (k + 1) net (reluVec (L.apply x)) hlen2 hget2
      calc (List.range' k (L :: L2 :: rest2).length).foldl (mlpStep net net.length) x
          = (List.range' (k + 1) (L2 :: rest2).length).foldl (mlpStep net net.length)
              (mlpStep net net.length x k) := by
            rw [show (L :: L2 :: rest2).length = (L2 :: rest2).length + 1 from rfl,
              List.range'_succ]
            rfl
        _ = mlpSpec (L2 :: rest2) (reluVec (L.apply x)) := by
            rw [hstep]
            exact hrec
        _ = mlpSpec (L :: L2 :: rest2) x := rfl

/-- `MLP.forward` computes the spec-side layer pipeline. -/
theorem MLP.forward_eq_mlpSpec (m : MLP) (x : List ℝ) :
    m.forward x = mlpSpec m.net x := by
  have h := mlp_foldl_spec m.net 0 m.net x (by simp) (fun i _ => by simp)
  simpa [MLP.forward, MLP.num_layers, List.range_eq_range'] using h

/-- The `sigma` entry of `forward` is the full-path density, whatever the
shading mode. -/
theorem NeRFNetwork.forward_sigma (net : NeRFNetwork) (x d : Fin 3 → ℝ)
    (shading : String) :
    (net.forward x d shading).sigma = truncExp ((net.fSum x).getD 0 0 - 1) := by
  simp only [NeRFNetwork.forward, NeRFNetwork.fSum]
  split_ifs <;> rfl

/-- With a negative `proposal`, `density` short-circuits the guard and takes
the full spatial path. -/
theorem NeRFNetwork.density_neg (net : NeRFNetwork) (x : Fin 3 → ℝ) (p : ℤ)
    (hp : p < 0) :
    net.density x p = .ok ⟨truncExp ((net.fSum x).getD 0 0 - 1)⟩ := by
  unfold NeRFNetwork.density NeRFNetwork.fSum
  have h : ¬ (0 ≤ p) := by omega
  simp [h]

/-- `clamp01` is the identity on a list whose entries already lie in `[0, 1]`. -/
theorem map_clamp01_of_bounded (l : List ℝ) (h : ∀ t ∈ l, 0 ≤ t ∧ t ≤ 1) :
    l.map clamp01 = l := by
  have h2 : ∀ t ∈ l, clamp01 t = id t := by
    intro t ht
    have := h t ht
    simp only [clamp01, id]
    rw [max_eq_left this.1, min_eq_left this.2]
  rw [List.map_congr_left h2, List.map_id]

/-! Claim theorems. -/

/-- Claim C6: `MLP.forward(x)`, for `num_layers ≥ 1` (a nonempty layer list),
applies exactly `num_layers` linear transforms with a ReLU after every layer
except the last; with `num_layers == 1` it is a single linear transform with
no activation. -/
theorem claim_C6_mlp_forward (L : LinLayer) (ls : List LinLayer) (x : List ℝ) :
    MLP.forward ⟨L :: ls⟩ x = mlpSpec (L :: ls) x ∧
    MLP.forward ⟨[L]⟩ x = L.apply x := by
  refine ⟨MLP.forward_eq_mlpSpec ⟨L :: ls⟩ x, ?_⟩
  rw [MLP.forward_eq_mlpSpec]
  rfl

/-- Claim C4: `forward` returns `sigma = trunc_exp(f[..., 0] - 1)` where `f`
is the elementwise sum of the four spatial encoder outputs; this `sigma` is
non-negative; and density is monotone non-decreasing in the channel-0 feature
value. -/
theorem claim_C4_sigma (net : NeRFNetwork) (x d : Fin 3 → ℝ) (shading : String) :
    (net.forward x d shading).sigma = truncExp ((net.fSum x).getD 0 0 - 1) ∧
    0 ≤ (net.forward x d shading).sigma ∧
    Monotone (fun t : ℝ => truncExp (t - 1)) := by
  refine ⟨net.forward_sigma x d shading, ?_, ?_⟩
  · rw [net.forward_sigma x d shading]
    exact (Real.exp_pos _).le
  · intro a b hab
    simp only [truncExp]
    exact Real.exp_le_exp.mpr (by linarith)

/-- Claim C7: `forward` and `common_forward` are pure functions of the input
and the current parameters: re-evaluation yields identical results, and
`common_forward` is invariant to the evaluation order of the plane encoders
(no hidden mutable state across calls in the embedding, mirroring the absence
of any cross-call state mutation in the source). -/
theorem claim_C7_determinism (net : NeRFNetwork) (x d : Fin 3 → ℝ)
    (shading : String) :
    net.common_forward x = net.common_forward_reordered x ∧
    net.forward x d shading = net.forward x d shading ∧
    net.common_forward x = net.common_forward x :=
  ⟨rfl, rfl, rfl⟩

/-- Claim C8: with a negative `proposal` (default `-1` or any other negative
value), `density` short-circuits `proposal >= 0 and ...` before touching
`self.prop_encoders`, takes the full-network path, and succeeds; the result
does not depend on the proposal submodules at all. -/
theorem claim_C8_negative_proposal (net : NeRFNetwork) (x : Fin 3 → ℝ) (p : ℤ)
    (hp : p < 0) :
    net.density x p = .ok ⟨truncExp ((net.fSum x).getD 0 0 - 1)⟩ ∧
    ∀ pe pm, net.density x p =
      ({ net with prop_encoders := pe, prop_mlp := pm } : NeRFNetwork).density x p := by
  refine ⟨net.density_neg x p hp, ?_⟩
  intro pe pm
  rw [net.density_neg x p hp,
    NeRFNetwork.density_neg ({ net with prop_encoders := pe, prop_mlp := pm }) x p hp]
  rfl

/-- Claim C8 witness: a network built with `cuda_ray = True` (no proposal
submodules), queried at `proposal = -2`, still succeeds via the full path. -/
theorem claim_C8_witness :
    netTrue.density x0 (-2) = .ok ⟨truncExp ((netTrue.fSum x0).getD 0 0 - 1)⟩ :=
  (claim_C8_negative_proposal netTrue x0 (-2) (by norm_num)).1

/-- Claim C10: when the proposal branch is not taken (negative `proposal`),
`density` returns exactly the `sigma` that `forward` returns for the same
point, whatever the direction and shading mode. -/
theorem claim_C10_density_matches_forward (net : NeRFNetwork) (x d : Fin 3 → ℝ)
    (shading : String) (p : ℤ) (hp : p < 0) :
    net.density x p = .ok ⟨(net.forward x d shading).sigma⟩ := by
  rw [net.density_neg x p hp, net.forward_sigma x d shading]

/-- Claim C10 witness at the default argument `proposal = -1`. -/
theorem claim_C10_witness :
    netFalse.density x0 (-1) = .ok ⟨(netFalse.forward x0 x0 "full").sigma⟩ :=
  claim_C10_density_matches_forward netFalse x0 x0 "full" (-1) (by norm_num)

/-- Claim C1 counterexample: for a network constructed with `cuda_ray = True`,
the non-default argument `proposal = -2` (which is `!= -1`) does not raise an
attribute error — the guard short-circuits before touching
`self.prop_encoders`. -/
theorem claim_C1_counterexample :
    netTrue.density x0 (-2) ≠ Except.error PyError.attributeError := by
  rw [NeRFNetwork.density_neg netTrue x0 (-2) (by norm_num)]
  intro h
  exact Except.noConfusion h

/-- Claim C1 (amended): if the network is constructed with `cuda_ray = True`
(so `prop_encoders` is never created), then for every input `x`, calling
`density(x, proposal)` with any non-negative `proposal` raises an attribute
error; negative `proposal` values (the default `-1` included) never touch the
proposal submodules. -/
theorem claim_C1_cuda_ray_attribute_error (b : ℝ) (ext : ExtModules)
    (x : Fin 3 → ℝ) (p : ℤ) (hp : 0 ≤ p) :
    (NeRFNetwork.init true b ext).density x p = .error .attributeError := by
  unfold NeRFNetwork.density
  simp [NeRFNetwork.init, hp]

/-- Claim C1 witness: `proposal = 0` on a concrete `cuda_ray = True` network
raises the attribute error. -/
theorem claim_C1_witness :
    (NeRFNetwork.init true 1 extZero).density x0 0 = .error .attributeError :=
  claim_C1_cuda_ray_attribute_error 1 extZero x0 0 (by norm_num)

/-- Claim C9: on a network constructed with `cuda_ray = False` (exactly two
proposal networks), an out-of-range non-negative index (`proposal ≥ 2`) does
not raise: `density` silently falls back to the full spatial path and returns
the same result as `density(x, -1)`. -/
theorem claim_C9_out_of_range_fallback (b : ℝ) (ext : ExtModules)
    (x : Fin 3 → ℝ) (p : ℤ) (hp : 2 ≤ p) :
    (NeRFNetwork.init false b ext).density x p =
      (NeRFNetwork.init false b ext).density x (-1) ∧
    (NeRFNetwork.init false b ext).density x p =
      .ok ⟨truncExp (((NeRFNetwork.init false b ext).fSum x).getD 0 0 - 1)⟩ := by
  have h2 : (NeRFNetwork.init false b ext).density x p =
      .ok ⟨truncExp (((NeRFNetwork.init false b ext).fSum x).getD 0 0 - 1)⟩ := by
    unfold NeRFNetwork.density NeRFNetwork.fSum
    have h0 : 0 ≤ p := by omega
    have hlt : ¬ (p < (2 : ℤ)) := by omega
    simp [NeRFNetwork.init, h0, hlt]
  constructor
  · rw [h2, NeRFNetwork.density_neg _ x (-1) (by norm_num)]
  · exact h2

/-- Claim C9 witness: `proposal = 2` on a concrete `cuda_ray = False` network
falls back to the full path. -/
theorem claim_C9_witness :
    (NeRFNetwork.init false 1 extZero).density x0 2 =
      (NeRFNetwork.init false 1 extZero).density x0 (-1) :=
  (claim_C9_out_of_range_fallback 1 extZero x0 2 (by norm_num)).1

/-- Claim C5: `get_params(lr)` always returns the `grid`, `planeXY`,
`planeYZ`, `planeXZ` and `view_mlp` groups, each tagged with learning rate
`lr`, and appends the proposal encoder and proposal MLP groups if and only if
the network was constructed with `cuda_ray = False`. -/
theorem claim_C5_get_params (cr : Bool) (b : ℝ) (ext : ExtModules) (lr : ℝ) :
    (NeRFNetwork.init cr b ext).get_params lr =
      [⟨.grid, lr⟩, ⟨.planeXY, lr⟩, ⟨.planeYZ, lr⟩, ⟨.planeXZ, lr⟩, ⟨.view_mlp, lr⟩]
        ++ (if cr then [] else [⟨.prop_encoders, lr⟩, ⟨.prop_mlp, lr⟩]) ∧
    (ParamGroup.mk .prop_encoders lr ∈ (NeRFNetwork.init cr b ext).get_params lr ↔
      cr = false) := by
  cases cr <;> simp [NeRFNetwork.get_params, NeRFNetwork.init]

/-- Claim C2: on a network built with `cuda_ray = False`, `density(x, proposal)`
with a valid proposal index (`0 ≤ proposal < 2`) returns
`sigma = trunc_exp(prop_mlp[proposal](prop_encoders[proposal](x, bound)).squeeze(-1) - 1)`
with no color output (the result carries only `sigma`); otherwise it returns
the full path `sigma = trunc_exp(f[..., 0] - 1)` with `f` the elementwise sum
of the four spatial encoder outputs. -/
theorem claim_C2_density_branches (b : ℝ) (ext : ExtModules) (x : Fin 3 → ℝ)
    (p : ℤ) :
    (NeRFNetwork.init false b ext).density x p =
      .ok ⟨if 0 ≤ p ∧ p < 2 then
            truncExp (((if p = 0 then ext.prop0Mlp else ext.prop1Mlp).forward
              ((if p = 0 then ext.prop0Enc else ext.prop1Enc) x b)).getD 0 0 - 1)
          else
            truncExp (((NeRFNetwork.init false b ext).fSum x).getD 0 0 - 1)⟩ := by
  by_cases h0 : 0 ≤ p
  · by_cases h2 : p < 2
    · have hcond : 0 ≤ p ∧ p < 2 := ⟨h0, h2⟩
      interval_cases p
      · unfold NeRFNetwork.density
        simp [NeRFNetwork.init]
      · unfold NeRFNetwork.density
        simp [NeRFNetwork.init]
    · unfold NeRFNetwork.density NeRFNetwork.fSum
      simp [NeRFNetwork.init, h0, h2]
  · rw [NeRFNetwork.density_neg _ x p (by omega)]
    have : ¬ (0 ≤ p ∧ p < 2) := fun hc => h0 hc.1
    simp [this]

/-- Claim C3: shading-mode contract of `forward`.  `"diffuse"` returns
`color = diffuse` and `specular = None`; `"specular"` returns the
sigmoid-squashed `view_mlp` output over `cat([diffuse, f_specular, encoded d])`;
any other mode (`"full"` included) returns `color = clamp(specular + diffuse, 0, 1)`,
which equals the unclamped sum whenever that sum already lies in `[0, 1]`
elementwise. -/
theorem claim_C3_shading_modes (net : NeRFNetwork) (x d : Fin 3 → ℝ)
    (s : String) :
    ((net.forward x d "diffuse").color = net.diffuseOf x ∧
      (net.forward x d "diffuse").specular = none) ∧
    (net.forward x d "specular").color = net.specularOf x d ∧
    (s ≠ "diffuse" → s ≠ "specular" →
      (net.forward x d s).color =
        (vadd (net.specularOf x d) (net.diffuseOf x)).map clamp01 ∧
      ((∀ t ∈ vadd (net.specularOf x d) (net.diffuseOf x), 0 ≤ t ∧ t ≤ 1) →
        (net.forward x d s).color = vadd (net.specularOf x d) (net.diffuseOf x))) := by
  refine ⟨⟨?_, ?_⟩, ?_, ?_⟩
  · simp [NeRFNetwork.forward, NeRFNetwork.diffuseOf, NeRFNetwork.fSum]
  · simp [NeRFNetwork.forward]
  · simp [NeRFNetwork.forward, NeRFNetwork.specularOf, NeRFNetwork.diffuseOf,
      NeRFNetwork.fspecOf, NeRFNetwork.fSum]
  · intro hs1 hs2
    have hcolor : (net.forward x d s).color =
        (vadd (net.specularOf x d) (net.diffuseOf x)).map clamp01 := by
      simp only [NeRFNetwork.forward, NeRFNetwork.specularOf, NeRFNetwork.diffuseOf,
        NeRFNetwork.fspecOf, NeRFNetwork.fSum]
      rw [if_neg hs1, if_neg hs2]
    refine ⟨hcolor, fun hb => ?_⟩
    rw [hcolor, map_clamp01_of_bounded _ hb]

/-- On the degenerate concrete network every feature list is empty, so the
specular-plus-diffuse sum is the empty list. -/
theorem netTrue_sum_nil :
    vadd (netTrue.specularOf x0 x0) (netTrue.diffuseOf x0) = [] := by
  simp [netTrue, NeRFNetwork.init, extZero, NeRFNetwork.specularOf,
    NeRFNetwork.diffuseOf, NeRFNetwork.fspecOf, NeRFNetwork.fSum,
    NeRFNetwork.common_forward, HashEncoder.forward, MLP.forward,
    MLP.num_layers, vadd]

/-- Claim C3 witness: on a concrete network and input where the sum already
lies in `[0, 1]` elementwise (here vacuously), full shading returns the
unclamped sum. -/
theorem claim_C3_witness :
    (netTrue.forward x0 x0 "full").color =
      vadd (netTrue.specularOf x0 x0) (netTrue.diffuseOf x0) :=
  ((claim_C3_shading_modes netTrue x0 x0 "full").2.2 (by decide) (by decide)).2
    (by rw [netTrue_sum_nil]; intro t ht; simp at ht)
